import Mathlib

/-!
Verification of the `pydocmd.loader` module (file `pydocmd/loader.py`).

The module loads documentation for a dotted identifier into a `Section`
record: it resolves the identifier to a live object and its enclosing
scope, derives a title (with a kind suffix), dedents the docstring, and
for callables prepends a formatted signature as a fenced code block.

The embedding models Python objects by the reflective attributes the
loader actually consults: `__name__`, `__doc__`, `__module__`,
`inspect.isclass`, `callable`, the named-tuple duck-type attributes, and
the callable's introspected parameter list.  Python strings are Lean
`String`s; attribute lookups that can raise are `Option`-valued; the
whole loader returns the mutated `Section` together with an optional
error, mirroring the fact that in Python the mutations performed before
an exception persist on the `Section` object.
-/

namespace Pydocmd

/-- The exception kinds the loader can surface: the `assert` on a missing
identifier, a resolution failure from `import_object_with_scope`, an
`AttributeError` from a missing attribute (e.g. `__name__`), and whatever
the reflective signature query (`inspect.signature` / `inspect.getargspec`)
raises for a non-introspectable callable. -/
inductive PyError where
  | assertionError
  | importError
  | attributeError
  | signatureError
  deriving DecidableEq

/-- The parameter metadata of an introspectable callable, as returned by
`inspect.getargspec`: positional argument names, the textual `repr` of the
trailing defaults (aligned to the tail of `args`, with
`defaults.length ≤ args.length`), and the optional `*varargs` /
`**keywords` names. -/
structure ArgSpec where
  args : List String
  defaults : List String
  varargs : Option String
  keywords : Option String
  deriving DecidableEq

/-- A Python object as seen through the reflective attributes the loader
reads.  `none` in an `Option` field means the attribute is absent (so a
plain lookup raises `AttributeError`); `argspec? = none` means the
callable is not introspectable, so the signature query raises. -/
structure PyObj where
  name? : Option String
  doc? : Option String
  module? : Option String
  isClass : Bool
  isCallable : Bool
  hasFields : Bool
  hasAsdict : Bool
  asdictCallable : Bool
  argspec? : Option ArgSpec
  deriving DecidableEq

/-- The `Section` record from `pydocmd.document`, restricted to the fields
the loader touches.  It is created with only `identifier` set; the loader
fills `title`, `content` and `loader_context`. -/
structure Section where
  identifier : Option String
  title : Option String := none
  content : Option String := none
  loader_context : Option (PyObj × PyObj) := none
  deriving DecidableEq

/-- `isnamedtuple` (loader.py): duck-type check
`hasattr(o, "_fields") and hasattr(o, "_asdict") and callable(o._asdict)`. -/
def isnamedtuple (o : PyObj) : Bool :=
  o.hasFields && (o.hasAsdict && o.asdictCallable)

/-- The whitespace characters of the `[ \t]` character classes used by
`textwrap.dedent`'s regular expressions. -/
def isWsChar (c : Char) : Bool := c = ' ' || c = '\t'

/-- Split a character list at newline characters; models the per-line view
taken by `re.MULTILINE` patterns and `str.split('\n')`. -/
def splitNl : List Char → List (List Char)
  | [] => [[]]
  | c :: cs =>
    if c = '\n' then [] :: splitNl cs
    else
      match splitNl cs with
      | [] => [[c]]
      | l :: ls => (c :: l) :: ls

/-- Rejoin lines with newline characters; inverse of `splitNl`. -/
def joinNl : List (List Char) → List Char
  | [] => []
  | [l] => l
  | l :: ls => l ++ '\n' :: joinNl ls

/-- One line's worth of `_whitespace_only_re.sub('', text)` in
`textwrap.dedent`: a line consisting solely of spaces/tabs (and at least
one of them, per the `+` in `^[ \t]+$`) is replaced by an empty line. -/
def normL (l : List Char) : List Char :=
  if !l.isEmpty && l.all isWsChar then [] else l

/-- Whether a line matches `_leading_whitespace_re`, i.e. contains a
character outside `[ \t\n]` (lines contain no newline here). -/
def hasNonWsL (l : List Char) : Bool := l.any (fun c => !isWsChar c)

/-- The captured group of `_leading_whitespace_re`: the line's leading run
of spaces/tabs. -/
def leadWsL (l : List Char) : List Char := l.takeWhile isWsChar

/-- Longest common prefix of two character lists.  `textwrap.dedent`'s
margin update (the `startswith` branches plus the explicit
character-by-character scan) computes exactly this. -/
def lcpL : List Char → List Char → List Char
  | a :: as, b :: bs => if a = b then a :: lcpL as bs else []
  | _, _ => []

/-- The margin computed by `textwrap.dedent`: the fold of the
longest-common-prefix over the leading whitespace of every line that has a
non-whitespace character; `None` (no such line) behaves as the empty
margin. -/
def marginL (ls : List (List Char)) : List Char :=
  match (ls.filter hasNonWsL).map leadWsL with
  | [] => []
  | i :: is => is.foldl lcpL i

/-- `re.sub(r'(?m)^' + margin, '', text)` on one line: remove the margin
from the front of a line that starts with it.  (When the margin is empty
`dedent` skips the substitution, which coincides with this function being
the identity.) -/
def stripL (m l : List Char) : List Char :=
  if m.isPrefixOf l then l.drop m.length else l

/-- Modelled from CPython `textwrap.dedent` (the `from textwrap import
dedent` dependency of loader.py): whitespace-only lines are first blanked,
the margin is the longest whitespace prefix common to all lines containing
non-whitespace, and the margin is then stripped from the front of every
line that starts with it. -/
def dedentL (cs : List Char) : List Char :=
  let ls := (splitNl cs).map normL
  joinNl (ls.map (stripL (marginL ls)))

/-- String-level wrapper for `dedentL`. -/
def dedent (s : String) : String := ⟨dedentL s.data⟩

/-- Whether `needle` occurs as a contiguous run somewhere in `hay`. -/
def hasInfixL (needle : List Char) : List Char → Bool
  | [] => needle.isEmpty
  | c :: cs => needle.isPrefixOf (c :: cs) || hasInfixL needle cs

/-- Python's `needle in hay` substring test on strings. -/
def containsSub (needle hay : String) : Bool :=
  hasInfixL needle.data hay.data

/-- Lines 63-66 of loader.py: `identifier.rsplit('.', 1)[1]` when the
identifier contains a dot (the substring after the last dot), else the
whole identifier. -/
def default_title_of (identifier : String) : String :=
  if identifier.data.contains '.' then
    ⟨(identifier.data.reverse.takeWhile (fun c => c != '.')).reverse⟩
  else identifier

/-- Lines 69-71 of loader.py: `getattr(obj, '__name__', default_title)`,
with the result `'__init__'` replaced by `'Constructor __init__'`. -/
def pre_title (obj : PyObj) (identifier : String) : String :=
  let t := obj.name?.getD (default_title_of identifier)
  if t = "__init__" then "Constructor __init__" else t

/-- Lines 79-84 of loader.py: the `if`/`elif` chain appending the kind
suffix to the title. -/
def title_suffix (obj scope : PyObj) : String :=
  if isnamedtuple obj then " namedtuple"
  else if obj.isClass then " class"
  else if obj.isCallable && !scope.isClass then " function"
  else ""

/-- A plain attribute lookup of `__name__`, raising `AttributeError` when
the attribute is absent. -/
def attr_name (o : PyObj) : Except PyError String :=
  match o.name? with
  | some n => Except.ok n
  | none => Except.error PyError.attributeError

/-- Lines 118-121 of loader.py: the loop
`for i, default in enumerate(defaults): args[i+offset] = '{}={!r}'...`,
updating in place the last `defaults.length` entries of `args`.  The
defaults are stored already `repr`-rendered.  (`inspect.getargspec`
guarantees `defaults.length ≤ args.length`; outside that range the `getD`
fallback is unreachable.) -/
def update_defaults (args ds : List String) : List String :=
  let offset := args.length - ds.length
  (List.range ds.length).foldl
    (fun acc i => acc.set (i + offset) ((acc.getD (i + offset) "") ++ "=" ++ ds.getD i ""))
    args

/-- `get_function_signature` (loader.py lines 95-128).  The name parts are
assembled in source order — `__module__` when `show_module`, the owner
class's `__name__`, then the callable's own `__name__` unless it is
`'__init__'` — and each attribute read can raise `AttributeError`.  The
parameter list is rendered as by the `getargspec` branch; CPython's
`str(inspect.signature(...))` produces the identical text for signatures
expressible as an `ArgSpec` (positional parameters with `repr`-rendered
defaults, then `*varargs`, then `**keywords`), so the
`hasattr(inspect, 'signature')` branch needs no separate model.  A
non-introspectable callable makes either reflective query raise. -/
def get_function_signature (function : PyObj) (owner_class : Option PyObj)
    (show_module : Bool) : Except PyError String :=
  match (if show_module then
          match function.module? with
          | some m => Except.ok [m]
          | none => Except.error PyError.attributeError
        else Except.ok ([] : List String)) with
  | Except.error e => Except.error e
  | Except.ok modParts =>
    match (match owner_class with
          | some oc =>
            (match attr_name oc with
            | Except.ok n => Except.ok [n]
            | Except.error e => Except.error e)
          | none => Except.ok ([] : List String)) with
    | Except.error e => Except.error e
    | Except.ok ownerParts =>
      match attr_name function with
      | Except.error e => Except.error e
      | Except.ok fname =>
        let name_parts :=
          modParts ++ ownerParts ++ (if fname ≠ "__init__" then [fname] else [])
        let name := String.intercalate "." name_parts
        match function.argspec? with
        | none => Except.error PyError.signatureError
        | some a =>
          let args := if a.defaults.isEmpty then a.args
                      else update_defaults a.args a.defaults
          let args := args ++ (match a.varargs with | some v => ["*" ++ v] | none => [])
          let args := args ++ (match a.keywords with | some k => ["**" ++ k] | none => [])
          Except.ok (name ++ "(" ++ String.intercalate ", " args ++ ")")

/-- The fenced code block `'```python\n{}\n```\n'.format(sig)` of line 92. -/
def code_fence (sig : String) : String := "```python\n" ++ sig ++ "\n```\n"

/-- `PythonLoader.load_section` (loader.py lines 49-92).  The resolver
stands for `import_object_with_scope`; the returned `Section` carries the
mutations performed before any exception, and the second component is the
exception, if one was raised. -/
def load_section (resolve : String → Except PyError (PyObj × PyObj))
    (sec : Section) : Section × Option PyError :=
  match sec.identifier with
  | none => (sec, some PyError.assertionError)
  | some identifier =>
    match resolve identifier with
    | Except.error e => (sec, some e)
    | Except.ok (obj, scope) =>
      let title := pre_title obj identifier ++ title_suffix obj scope
      let content := dedent (obj.doc?.getD "")
      let sec1 : Section :=
        { sec with title := some title, content := some content,
                   loader_context := some (obj, scope) }
      if obj.isCallable && !containsSub "namedtuple" content then
        match get_function_signature obj (if scope.isClass then some scope else none) false with
        | Except.error e => (sec1, some e)
        | Except.ok sig =>
          if !obj.isClass then
            ({ sec1 with content := some (code_fence sig ++ content) }, none)
          else (sec1, none)
      else (sec1, none)

/-- The spec's reading of the default title: "the substring after the last
`.` in the identifier, or the whole identifier if no `.` is present",
computed as a left fold that restarts at every dot. -/
def spec_last_segment (identifier : String) : String :=
  ⟨identifier.data.foldl (fun acc c => if c = '.' then [] else acc.concat c) []⟩

/-- The spec's reading of the pre-suffix title (title derivation steps 1-3
of the spec): intrinsic name when present, else the last path segment,
with `__init__` replaced by `Constructor __init__`. -/
def spec_pre_title (obj : PyObj) (identifier : String) : String :=
  let base :=
    match obj.name? with
    | some n => n
    | none => spec_last_segment identifier
  if base = "__init__" then "Constructor __init__" else base

/-- The spec's reading of the rendered parameter list: positional
parameters without defaults in declaration order, then the defaulted ones
rendered `name=default`, then `*varargs`, then `**keywords`. -/
def spec_params (a : ArgSpec) : List String :=
  let n := a.args.length - a.defaults.length
  a.args.take n
    ++ (List.zipWith (fun x d => x ++ "=" ++ d) (a.args.drop n) a.defaults)
    ++ (match a.varargs with | some v => ["*" ++ v] | none => [])
    ++ (match a.keywords with | some k => ["**" ++ k] | none => [])

/-- Builds the constant resolver used by concrete runs: every identifier
resolves to the given object and scope. -/
def resolveTo (o s : PyObj) : String → Except PyError (PyObj × PyObj) :=
  fun _ => Except.ok (o, s)

/-- A module used as a non-class scope in concrete runs. -/
def modScope : PyObj :=
  { name? := some "m", doc? := none, module? := none, isClass := false,
    isCallable := false, hasFields := false, hasAsdict := false,
    asdictCallable := false, argspec? := none }

/-- A plain function `f(a, b=2, *args, **kw)` with no docstring. -/
def fObj : PyObj :=
  { name? := some "f", doc? := none, module? := some "m", isClass := false,
    isCallable := true, hasFields := false, hasAsdict := false,
    asdictCallable := false,
    argspec? := some ⟨["a", "b"], ["2"], some "args", some "kw"⟩ }

/-- A callable whose signature query raises (`argspec? = none`). -/
def oddCallable : PyObj :=
  { name? := some "f", doc? := some "", module? := some "m", isClass := false,
    isCallable := true, hasFields := false, hasAsdict := false,
    asdictCallable := false, argspec? := none }

/-- A callable non-class instance that passes the named-tuple duck-type
check and has an introspectable signature `nt(x)`. -/
def duckNt : PyObj :=
  { name? := some "nt", doc? := some "", module? := some "m", isClass := false,
    isCallable := true, hasFields := true, hasAsdict := true,
    asdictCallable := true, argspec? := some ⟨["x"], [], none, none⟩ }

/-- A non-callable object whose docstring contains a whitespace-only
line. -/
def wsDocObj : PyObj :=
  { name? := some "T", doc? := some "a\n \nb", module? := some "m",
    isClass := false, isCallable := false, hasFields := false,
    hasAsdict := false, asdictCallable := false, argspec? := none }

/-- A non-callable object whose `__name__` is the empty string. -/
def emptyNameObj : PyObj :=
  { name? := some "", doc? := none, module? := some "m", isClass := false,
    isCallable := false, hasFields := false, hasAsdict := false,
    asdictCallable := false, argspec? := none }

/-- A callable lacking a `__name__` attribute (e.g. a `functools.partial`
object), with an otherwise introspectable signature. -/
def namelessCallable : PyObj :=
  { name? := none, doc? := some "", module? := some "m", isClass := false,
    isCallable := true, hasFields := false, hasAsdict := false,
    asdictCallable := false, argspec? := some ⟨["x"], [], none, none⟩ }

/-- A documented function used for signature-block runs. -/
def docFn : PyObj :=
  { name? := some "g", doc? := some "Docs.", module? := some "m",
    isClass := false, isCallable := true, hasFields := false,
    hasAsdict := false, asdictCallable := false,
    argspec? := some ⟨["x"], [], none, none⟩ }

/-- The per-line view `textwrap.dedent` takes of a docstring: split at
newlines, with whitespace-only lines blanked. -/
def doc_lines (d : String) : List (List Char) := (splitNl d.data).map normL

/-- The margin `textwrap.dedent` computes for a docstring. -/
def doc_margin (d : String) : List Char := marginL (doc_lines d)

theorem lcpL_prefix_left (a b : List Char) : lcpL a b <+: a := by
  induction a generalizing b with
  | nil => cases b <;> simp [lcpL]
  | cons x xs ih =>
    cases b with
    | nil => simp [lcpL]
    | cons y ys =>
      by_cases h : x = y
      · subst h
        simp only [lcpL, if_pos rfl]
        exact List.cons_prefix_cons.mpr ⟨rfl, ih ys⟩
      · simp [lcpL, h]

theorem lcpL_prefix_right (a b : List Char) : lcpL a b <+: b := by
  induction a generalizing b with
  | nil => cases b <;> simp [lcpL]
  | cons x xs ih =>
    cases b with
    | nil => simp [lcpL]
    | cons y ys =>
      by_cases h : x = y
      · subst h
        simp only [lcpL, if_pos rfl]
        exact List.cons_prefix_cons.mpr ⟨rfl, ih ys⟩
      · simp [lcpL, h]

theorem prefix_lcpL (p a b : List Char) (ha : p <+: a) (hb : p <+: b) :
    p <+: lcpL a b := by
  induction p generalizing a b with
  | nil => exact List.nil_prefix
  | cons c p ih =>
    obtain ⟨ta, hta⟩ := ha
    obtain ⟨tb, htb⟩ := hb
    subst hta htb
    simp only [List.cons_append, lcpL, if_pos rfl]
    exact List.cons_prefix_cons.mpr ⟨rfl, ih (p ++ ta) (p ++ tb) ⟨ta, rfl⟩ ⟨tb, rfl⟩⟩

theorem foldl_lcpL_prefix_mem (i : List Char) (is : List (List Char)) :
    ∀ j ∈ i :: is, is.foldl lcpL i <+: j := by
  induction is generalizing i with
  | nil => intro j hj; simp at hj; subst hj; exact List.prefix_rfl
  | cons x xs ih =>
    intro j hj
    simp only [List.mem_cons] at hj
    rcases hj with hj | hj | hj
    · subst hj
      exact (ih (lcpL j x) (lcpL j x) (by simp)).trans (lcpL_prefix_left j x)
    · subst hj
      exact (ih (lcpL i j) (lcpL i j) (by simp)).trans (lcpL_prefix_right i j)
    · exact ih (lcpL i x) j (by simp [hj])

theorem prefix_foldl_lcpL (p i : List Char) (is : List (List Char))
    (hi : p <+: i) (his : ∀ j ∈ is, p <+: j) : p <+: is.foldl lcpL i := by
  induction is generalizing i with
  | nil => exact hi
  | cons x xs ih =>
    exact ih (lcpL i x) (prefix_lcpL p i x hi (his x (by simp)))
      (fun j hj => his j (by simp [hj]))

theorem all_takeWhile (q : Char → Bool) (l : List Char) :
    (l.takeWhile q).all q = true := by
  induction l with
  | nil => rfl
  | cons c cs ih =>
    by_cases h : q c
    · simp [List.takeWhile, h, ih]
    · simp [List.takeWhile, h]

theorem all_of_prefix (q : Char → Bool) (p l : List Char) (h : p <+: l)
    (hl : l.all q = true) : p.all q = true := by
  obtain ⟨t, ht⟩ := h
  subst ht
  simp only [List.all_append, Bool.and_eq_true] at hl
  exact hl.1

theorem prefix_takeWhile (q : Char → Bool) (p l : List Char)
    (hp : p.all q = true) (h : p <+: l) : p <+: l.takeWhile q := by
  induction p generalizing l with
  | nil => exact List.nil_prefix
  | cons c cs ih =>
    obtain ⟨t, ht⟩ := h
    subst ht
    simp only [List.all_cons, Bool.and_eq_true] at hp
    simp only [List.cons_append, List.takeWhile, hp.1]
    exact List.cons_prefix_cons.mpr ⟨rfl, ih (cs ++ t) hp.2 ⟨t, rfl⟩⟩

theorem marginL_all_ws (ls : List (List Char)) :
    (marginL ls).all isWsChar = true := by
  unfold marginL
  cases h : (ls.filter hasNonWsL).map leadWsL with
  | nil => rfl
  | cons i is =>
    have hmem : i ∈ (ls.filter hasNonWsL).map leadWsL := by simp [h]
    obtain ⟨l, _, hil⟩ := List.mem_map.mp hmem
    have hiw : i.all isWsChar = true := by
      rw [← hil]; exact all_takeWhile isWsChar l
    exact all_of_prefix isWsChar _ i
      (foldl_lcpL_prefix_mem i is i (by simp)) hiw

theorem marginL_starts_lines (ls : List (List Char)) (l : List Char)
    (hl : l ∈ ls) (hnw : hasNonWsL l = true) : marginL ls <+: l := by
  unfold marginL
  have hmem : leadWsL l ∈ (ls.filter hasNonWsL).map leadWsL :=
    List.mem_map.mpr ⟨l, List.mem_filter.mpr ⟨hl, hnw⟩, rfl⟩
  cases h : (ls.filter hasNonWsL).map leadWsL with
  | nil => rw [h] at hmem; simp at hmem
  | cons i is =>
    rw [h] at hmem
    exact (foldl_lcpL_prefix_mem i is (leadWsL l) hmem).trans
      ( List.takeWhile_prefix isWsChar)

theorem prefix_marginL (ls : List (List Char)) (p : List Char)
    (hws : p.all isWsChar = true)
    (hall : ∀ l ∈ ls, hasNonWsL l = true → p <+: l)
    (hex : ∃ l ∈ ls, hasNonWsL l = true) : p <+: marginL ls := by
  unfold marginL
  obtain ⟨l0, hl0, hnw0⟩ := hex
  have hmem : leadWsL l0 ∈ (ls.filter hasNonWsL).map leadWsL :=
    List.mem_map.mpr ⟨l0, List.mem_filter.mpr ⟨hl0, hnw0⟩, rfl⟩
  cases h : (ls.filter hasNonWsL).map leadWsL with
  | nil => rw [h] at hmem; simp at hmem
  | cons i is =>
    have hpre : ∀ j ∈ i :: is, p <+: j := by
      intro j hj
      rw [← h] at hj
      obtain ⟨l, hlf, hjl⟩ := List.mem_map.mp hj
      have hlmem := List.mem_filter.mp hlf
      subst hjl
      exact prefix_takeWhile isWsChar p l hws (hall l hlmem.1 hlmem.2)
    exact prefix_foldl_lcpL p i is (hpre i (by simp)) (fun j hj => hpre j (by simp [hj]))

theorem splitNl_ne_nil (cs : List Char) : splitNl cs ≠ [] := by
  cases cs with
  | nil => simp [splitNl]
  | cons c cs =>
    by_cases h : c = '\n'
    · simp [splitNl, h]
    · simp only [splitNl, h, if_false]
      cases splitNl cs <;> simp

theorem joinNl_cons_head (c : Char) (l : List Char) (ls : List (List Char)) :
    joinNl ((c :: l) :: ls) = c :: joinNl (l :: ls) := by
  cases ls <;> simp [joinNl]

theorem joinNl_splitNl (cs : List Char) : joinNl (splitNl cs) = cs := by
  induction cs with
  | nil => rfl
  | cons c cs ih =>
    by_cases h : c = '\n'
    · subst h
      simp only [splitNl, if_pos rfl]
      cases hs : splitNl cs with
      | nil => exact absurd hs (splitNl_ne_nil cs)
      | cons l ls =>
        rw [hs] at ih
        simp [joinNl, ih]
    · simp only [splitNl, h, if_false]
      cases hs : splitNl cs with
      | nil => exact absurd hs (splitNl_ne_nil cs)
      | cons l ls =>
        rw [hs] at ih
        rw [joinNl_cons_head, ih]

theorem stripL_nil (l : List Char) : stripL [] l = l := by
  simp [stripL, List.isPrefixOf]

theorem string_append_ne_empty_left (a b : String) (h : a ≠ "") :
    a ++ b ≠ "" := by
  intro hab
  apply h
  rw [String.ext_iff] at hab ⊢
  rw [String.data_append] at hab
  have : a.data = [] ∧ b.data = [] := List.append_eq_nil.mp hab
  exact this.1


theorem gfs_error_kind (f : PyObj) (oc : Option PyObj) (sm : Bool) (e : PyError)
    (h : get_function_signature f oc sm = Except.error e) :
    e = PyError.attributeError ∨ e = PyError.signatureError := by
  cases sm <;> cases hm : f.module? <;> cases hn : f.name? <;>
    cases ha : f.argspec? <;> rcases oc with _ | oc
  all_goals try cases hocn : oc.name?
  all_goals simp_all [get_function_signature, attr_name]

theorem load_section_resolved (resolve : String → Except PyError (PyObj × PyObj))
    (sec : Section) (identifier : String) (obj scope : PyObj)
    (hid : sec.identifier = some identifier)
    (hres : resolve identifier = Except.ok (obj, scope)) :
    ∃ c, (load_section resolve sec).1 =
        { identifier := sec.identifier,
          title := some (pre_title obj identifier ++ title_suffix obj scope),
          content := some c,
          loader_context := some (obj, scope) } ∧
      (c = dedent (obj.doc?.getD "") ∨
        ∃ sig, get_function_signature obj
            (if scope.isClass then some scope else none) false = Except.ok sig ∧
          c = code_fence sig ++ dedent (obj.doc?.getD "")) := by
  unfold load_section
  rw [hid]
  dsimp only
  rw [hres]
  dsimp only
  split
  · split
    · exact ⟨dedent (obj.doc?.getD ""), rfl, Or.inl rfl⟩
    · split
      · exact ⟨code_fence _ ++ dedent (obj.doc?.getD ""), rfl,
          Or.inr ⟨_, by assumption, rfl⟩⟩
      · exact ⟨dedent (obj.doc?.getD ""), rfl, Or.inl rfl⟩
  · exact ⟨dedent (obj.doc?.getD ""), rfl, Or.inl rfl⟩

theorem load_section_run (resolve : String → Except PyError (PyObj × PyObj))
    (sec : Section) (identifier : String) (obj scope : PyObj)
    (hid : sec.identifier = some identifier)
    (hres : resolve identifier = Except.ok (obj, scope)) :
    ((obj.isCallable && !containsSub "namedtuple" (dedent (obj.doc?.getD ""))) = false →
      load_section resolve sec =
        ({ identifier := sec.identifier,
           title := some (pre_title obj identifier ++ title_suffix obj scope),
           content := some (dedent (obj.doc?.getD "")),
           loader_context := some (obj, scope) }, none)) ∧
    ((obj.isCallable && !containsSub "namedtuple" (dedent (obj.doc?.getD ""))) = true →
      (∀ e, get_function_signature obj (if scope.isClass then some scope else none) false
          = Except.error e →
        load_section resolve sec =
          ({ identifier := sec.identifier,
             title := some (pre_title obj identifier ++ title_suffix obj scope),
             content := some (dedent (obj.doc?.getD "")),
             loader_context := some (obj, scope) }, some e)) ∧
      (∀ sig, get_function_signature obj (if scope.isClass then some scope else none) false
          = Except.ok sig →
        (obj.isClass = true →
          load_section resolve sec =
            ({ identifier := sec.identifier,
               title := some (pre_title obj identifier ++ title_suffix obj scope),
               content := some (dedent (obj.doc?.getD "")),
               loader_context := some (obj, scope) }, none)) ∧
        (obj.isClass = false →
          load_section resolve sec =
            ({ identifier := sec.identifier,
               title := some (pre_title obj identifier ++ title_suffix obj scope),
               content := some (code_fence sig ++ dedent (obj.doc?.getD "")),
               loader_context := some (obj, scope) }, none)))) := by
  unfold load_section
  rw [hid]
  dsimp only
  rw [hres]
  dsimp only
  refine ⟨?_, ?_⟩
  · intro hcond
    simp [hcond]
  · intro hcond
    refine ⟨?_, ?_⟩
    · intro e he
      simp [hcond, he]
    · intro sig hsig
      refine ⟨?_, ?_⟩
      · intro hcls
        simp [hcond, hsig, hcls]
      · intro hcls
        simp [hcond, hsig, hcls]

theorem foldl_set_upd (upd : String → String → String) (ds : List String) :
    ∀ (args : List String) (offset : Nat), args.length = offset + ds.length →
    (List.range ds.length).foldl
        (fun acc i => acc.set (i + offset) (upd (acc.getD (i + offset) "") (ds.getD i "")))
        args
      = args.take offset ++ List.zipWith upd (args.drop offset) ds := by
  induction ds with
  | nil =>
    intro args offset h
    simp only [List.length_nil, Nat.add_zero] at h
    simp only [List.length_nil, List.range_zero, List.foldl_nil, List.zipWith_nil_right,
      List.append_nil]
    exact (List.take_of_length_le (by omega)).symm
  | cons d ds ih =>
    intro args offset h
    have hofflt : offset < args.length := by simp at h; omega
    have hrange : List.range (d :: ds).length = 0 :: (List.range ds.length).map Nat.succ := by
      simp [List.range_succ_eq_map]
    rw [hrange, List.foldl_cons, List.foldl_map]
    have hfun : (fun (acc : List String) (i : Nat) =>
          acc.set (i.succ + offset) (upd (acc.getD (i.succ + offset) "") ((d :: ds).getD i.succ "")))
        = (fun (acc : List String) (i : Nat) =>
          acc.set (i + (offset + 1)) (upd (acc.getD (i + (offset + 1)) "") (ds.getD i ""))) := by
      funext acc i
      rw [show i.succ + offset = i + (offset + 1) by omega]
      rfl
    rw [hfun]
    have hv : (0 + offset) = offset := by omega
    rw [hv]
    set v := upd (args.getD offset "") ((d :: ds).getD 0 "") with hvdef
    have hlen2 : (args.set offset v).length = (offset + 1) + ds.length := by
      simp at h ⊢; omega
    rw [ih (args.set offset v) (offset + 1) hlen2]
    have hset : args.set offset v = args.take offset ++ v :: args.drop (offset + 1) :=
      List.set_eq_take_cons_drop v hofflt
    have htakelen : (args.take offset).length = offset := by
      simp [List.length_take]; omega
    have htake : (args.set offset v).take (offset + 1) = args.take offset ++ [v] := by
      rw [hset, List.take_append_eq_append_take, htakelen,
        List.take_of_length_le (by omega : (args.take offset).length ≤ offset + 1)]
      congr 1
      rw [show offset + 1 - offset = 1 by omega]
      rfl
    have hdrop : (args.set offset v).drop (offset + 1) = args.drop (offset + 1) := by
      rw [hset, List.drop_append_eq_append_drop, htakelen,
        List.drop_eq_nil_of_le (by omega : (args.take offset).length ≤ offset + 1)]
      rw [show offset + 1 - offset = 1 by omega]
      rfl
    rw [htake, hdrop]
    rw [List.drop_eq_getElem_cons hofflt]
    have hvv : v = upd args[offset] d := by
      rw [hvdef, List.getD_eq_getElem args "" hofflt]
      rfl
    rw [List.zipWith_cons_cons, hvv]
    simp

theorem update_defaults_eq (args ds : List String) (h : ds.length ≤ args.length) :
    update_defaults args ds
      = args.take (args.length - ds.length) ++
        List.zipWith (fun a d => a ++ "=" ++ d) (args.drop (args.length - ds.length)) ds := by
  unfold update_defaults
  exact foldl_set_upd (fun a d => a ++ "=" ++ d) ds args (args.length - ds.length) (by omega)

theorem gfs_params_eq_spec (a : ArgSpec) (h : a.defaults.length ≤ a.args.length) :
    ((if a.defaults.isEmpty then a.args else update_defaults a.args a.defaults)
        ++ (match a.varargs with | some v => ["*" ++ v] | none => []))
        ++ (match a.keywords with | some k => ["**" ++ k] | none => [])
      = spec_params a := by
  unfold spec_params
  by_cases hemp : a.defaults.isEmpty
  · have hnil : a.defaults = [] := by
      simpa [List.isEmpty_iff] using hemp
    rw [if_pos hemp]
    rw [hnil]
    simp [List.take_of_length_le, List.append_assoc]
  · rw [if_neg hemp, update_defaults_eq a.args a.defaults h]

theorem takeWhile_append_list (q : Char → Bool) (xs ys : List Char) :
    (xs ++ ys).takeWhile q
      = if xs.all q then xs ++ ys.takeWhile q else xs.takeWhile q := by
  induction xs with
  | nil => simp
  | cons x xs ih =>
    by_cases h : q x
    · simp only [List.cons_append, List.takeWhile_cons, h, ih, List.all_cons, Bool.true_and,
        if_true]
      exact apply_ite (fun t => x :: t) (xs.all q = true) (xs ++ ys.takeWhile q) (xs.takeWhile q)
    · simp [List.takeWhile_cons, h]

theorem contains_dot_mem (l : List Char) : l.contains '.' = true ↔ '.' ∈ l :=
  List.elem_iff

theorem all_ne_dot_of_not_mem (l : List Char) (h : '.' ∉ l) :
    l.all (fun c => c != '.') = true := by
  rw [List.all_eq_true]
  intro x hx
  simp only [bne_iff_ne, ne_eq]
  intro he
  exact h (he ▸ hx)

theorem not_all_ne_dot_of_mem (l : List Char) (h : '.' ∈ l) :
    ¬ l.all (fun c => c != '.') = true := by
  intro hall
  rw [List.all_eq_true] at hall
  have := hall '.' h
  simp at this

theorem foldl_last_segment (l : List Char) :
    ∀ acc : List Char,
      l.foldl (fun acc c => if c = '.' then [] else acc.concat c) acc
        = if l.contains '.' then (l.reverse.takeWhile (fun c => c != '.')).reverse
          else acc ++ l := by
  induction l with
  | nil => intro acc; simp
  | cons c l ih =>
    intro acc
    rw [List.foldl_cons]
    by_cases hc : c = '.'
    · subst hc
      rw [if_pos rfl, ih []]
      have hcon : ('.' :: l).contains '.' = true := by
        rw [contains_dot_mem]; simp
      rw [hcon]
      simp only [eq_self_iff_true, if_true]
      by_cases hl : l.contains '.'
      · rw [if_pos hl]
        have hmem : '.' ∈ l.reverse := by
          rw [List.mem_reverse]; exact (contains_dot_mem l).mp hl
        rw [List.reverse_cons, takeWhile_append_list,
          if_neg (not_all_ne_dot_of_mem l.reverse hmem)]
      · rw [if_neg hl, List.nil_append]
        have hnmem : '.' ∉ l.reverse := by
          rw [List.mem_reverse]
          intro hm
          exact hl ((contains_dot_mem l).mpr hm)
        rw [List.reverse_cons, takeWhile_append_list,
          if_pos (all_ne_dot_of_not_mem l.reverse hnmem)]
        simp
    · rw [if_neg hc, ih (acc.concat c)]
      have hcon : (c :: l).contains '.' = l.contains '.' := by
        by_cases hl : l.contains '.'
        · rw [hl, contains_dot_mem]
          exact List.mem_cons_of_mem c ((contains_dot_mem l).mp hl)
        · simp only [Bool.not_eq_true] at hl
          rw [hl]
          rw [← Bool.not_eq_true, contains_dot_mem, List.mem_cons]
          rintro (hd | hm)
          · exact hc hd.symm
          · rw [(contains_dot_mem l).mpr hm] at hl
            exact absurd hl (by decide)
      rw [hcon]
      by_cases hl : l.contains '.'
      · rw [if_pos hl, if_pos hl]
        have hmem : '.' ∈ l.reverse := by
          rw [List.mem_reverse]; exact (contains_dot_mem l).mp hl
        rw [List.reverse_cons, takeWhile_append_list,
          if_neg (not_all_ne_dot_of_mem l.reverse hmem)]
      · rw [if_neg hl, if_neg hl]
        simp

theorem default_title_of_eq_spec (identifier : String) :
    default_title_of identifier = spec_last_segment identifier := by
  unfold default_title_of spec_last_segment
  rw [String.ext_iff]
  by_cases h : identifier.data.contains '.'
  · rw [if_pos h]
    simp only
    rw [foldl_last_segment identifier.data [], if_pos h]
  · rw [if_neg h]
    simp only
    rw [foldl_last_segment identifier.data [], if_neg h]
    simp


theorem load_section_resolved_fields (resolve : String → Except PyError (PyObj × PyObj))
    (sec : Section) (identifier : String) (obj scope : PyObj)
    (hid : sec.identifier = some identifier)
    (hres : resolve identifier = Except.ok (obj, scope)) :
    (load_section resolve sec).1.title
        = some (pre_title obj identifier ++ title_suffix obj scope) ∧
    (load_section resolve sec).1.loader_context = some (obj, scope) ∧
    (load_section resolve sec).1.identifier = sec.identifier ∧
    ∃ c, (load_section resolve sec).1.content = some c := by
  obtain ⟨c, h1, -⟩ := load_section_resolved resolve sec identifier obj scope hid hres
  rw [h1]
  exact ⟨rfl, rfl, rfl, c, rfl⟩

theorem load_section_error_of_resolved (resolve : String → Except PyError (PyObj × PyObj))
    (sec : Section) (identifier : String) (obj scope : PyObj) (e : PyError)
    (hid : sec.identifier = some identifier)
    (hres : resolve identifier = Except.ok (obj, scope))
    (he : (load_section resolve sec).2 = some e) :
    get_function_signature obj (if scope.isClass then some scope else none) false
        = Except.error e ∧
    (obj.isCallable && !containsSub "namedtuple" (dedent (obj.doc?.getD ""))) = true := by
  obtain ⟨h1, h2⟩ := load_section_run resolve sec identifier obj scope hid hres
  by_cases hcond : (obj.isCallable && !containsSub "namedtuple" (dedent (obj.doc?.getD ""))) = true
  · obtain ⟨herr, hok⟩ := h2 hcond
    cases hsig : get_function_signature obj (if scope.isClass then some scope else none) false with
    | error e2 =>
      rw [herr e2 hsig] at he
      simp only [Option.some.injEq] at he
      subst he
      exact ⟨rfl, hcond⟩
    | ok sig =>
      obtain ⟨hcls_t, hcls_f⟩ := hok sig hsig
      cases hcls : obj.isClass with
      | true => rw [hcls_t hcls] at he; simp at he
      | false => rw [hcls_f hcls] at he; simp at he
  · have hcf : (obj.isCallable && !containsSub "namedtuple" (dedent (obj.doc?.getD ""))) = false := by
      revert hcond
      cases obj.isCallable && !containsSub "namedtuple" (dedent (obj.doc?.getD "")) <;> simp
    rw [h1 hcf] at he
    simp at he

theorem load_section_ok_of_resolved (resolve : String → Except PyError (PyObj × PyObj))
    (sec : Section) (identifier : String) (obj scope : PyObj)
    (hid : sec.identifier = some identifier)
    (hres : resolve identifier = Except.ok (obj, scope))
    (hc : obj.isCallable = true)
    (hnt : containsSub "namedtuple" (dedent (obj.doc?.getD "")) = false)
    (hok : (load_section resolve sec).2 = none) :
    ∃ sig, get_function_signature obj (if scope.isClass then some scope else none) false
        = Except.ok sig ∧
      (load_section resolve sec).1.content
        = some (if obj.isClass = true then dedent (obj.doc?.getD "")
                else code_fence sig ++ dedent (obj.doc?.getD "")) := by
  obtain ⟨-, h2⟩ := load_section_run resolve sec identifier obj scope hid hres
  have hcond : (obj.isCallable && !containsSub "namedtuple" (dedent (obj.doc?.getD ""))) = true := by
    rw [hc, hnt]; rfl
  obtain ⟨herr, hsigc⟩ := h2 hcond
  cases hsig : get_function_signature obj (if scope.isClass then some scope else none) false with
  | error e2 => rw [herr e2 hsig] at hok; simp at hok
  | ok sig =>
    obtain ⟨hcls_t, hcls_f⟩ := hsigc sig hsig
    refine ⟨sig, rfl, ?_⟩
    cases hcls : obj.isClass with
    | true => rw [hcls_t hcls, if_pos rfl]
    | false => rw [hcls_f hcls, if_neg (by simp)]

theorem load_section_no_sig_content (resolve : String → Except PyError (PyObj × PyObj))
    (sec : Section) (identifier : String) (obj scope : PyObj)
    (hid : sec.identifier = some identifier)
    (hres : resolve identifier = Except.ok (obj, scope))
    (hcf : (obj.isCallable && !containsSub "namedtuple" (dedent (obj.doc?.getD ""))) = false) :
    (load_section resolve sec).1.content = some (dedent (obj.doc?.getD "")) ∧
    (load_section resolve sec).2 = none := by
  obtain ⟨h1, -⟩ := load_section_run resolve sec identifier obj scope hid hres
  rw [h1 hcf]
  exact ⟨rfl, rfl⟩

theorem pre_title_eq_spec (obj : PyObj) (identifier : String) :
    pre_title obj identifier = spec_pre_title obj identifier := by
  unfold pre_title spec_pre_title
  cases obj.name? with
  | none => simp [Option.getD, default_title_of_eq_spec]
  | some n => simp [Option.getD]

theorem dedent_id (d : String) (hnorm : ∀ l ∈ splitNl d.data, normL l = l)
    (hm : doc_margin d = []) : dedent d = d := by
  rw [String.ext_iff]
  show dedentL d.data = d.data
  unfold dedentL
  dsimp only
  have hmap : (splitNl d.data).map normL = splitNl d.data :=
    (List.map_congr_left hnorm).trans (List.map_id _)
  unfold doc_margin doc_lines at hm
  rw [hmap] at hm ⊢
  rw [hm]
  have hstrip : (splitNl d.data).map (stripL []) = splitNl d.data :=
    (List.map_congr_left (fun l _ => stripL_nil l)).trans (List.map_id _)
  rw [hstrip, joinNl_splitNl]


/-- C4: for every resolved entity the title suffix is chosen by the first
matching rule, in order: named-tuple duck-type appends " namedtuple"; else
a class appends " class"; else a callable whose scope is not a class
appends " function"; else no suffix is appended. -/
theorem load_section_title_suffix_order
    (resolve : String → Except PyError (PyObj × PyObj)) (sec : Section)
    (identifier : String) (obj scope : PyObj)
    (hid : sec.identifier = some identifier)
    (hres : resolve identifier = Except.ok (obj, scope)) :
    (isnamedtuple obj = true →
      (load_section resolve sec).1.title
        = some (pre_title obj identifier ++ " namedtuple")) ∧
    (isnamedtuple obj = false → obj.isClass = true →
      (load_section resolve sec).1.title
        = some (pre_title obj identifier ++ " class")) ∧
    (isnamedtuple obj = false → obj.isClass = false → obj.isCallable = true →
      scope.isClass = false →
      (load_section resolve sec).1.title
        = some (pre_title obj identifier ++ " function")) ∧
    (isnamedtuple obj = false → obj.isClass = false →
      (obj.isCallable = false ∨ scope.isClass = true) →
      (load_section resolve sec).1.title = some (pre_title obj identifier)) := by
  obtain ⟨ht, -, -, -⟩ :=
    load_section_resolved_fields resolve sec identifier obj scope hid hres
  rw [ht]
  unfold title_suffix
  refine ⟨?_, ?_, ?_, ?_⟩
  · intro h1; rw [h1]; simp
  · intro h1 h2; rw [h1, h2]; simp
  · intro h1 h2 h3 h4; rw [h1, h2, h3, h4]; simp
  · intro h1 h2 h3
    rw [h1, h2]
    rcases h3 with h3 | h3 <;> rw [h3] <;> simp

/-- C4 witness: a concrete run in which the third rule fires, giving the
" function" suffix. -/
theorem load_section_title_suffix_order_witness :
    (load_section (resolveTo fObj modScope) { identifier := some "m.f" }).1.title
      = some (pre_title fObj "m.f" ++ " function") := by
  have h := load_section_title_suffix_order (resolveTo fObj modScope)
    { identifier := some "m.f" } "m.f" fObj modScope rfl rfl
  exact h.2.2.1 rfl rfl rfl rfl

/-- C5: the pre-suffix title is the substring of the identifier after its
last dot (or the whole identifier without a dot), overridden by the
entity's intrinsic name when present, and replaced by the literal
"Constructor __init__" when it equals "__init__". -/
theorem load_section_pre_title_spec
    (resolve : String → Except PyError (PyObj × PyObj)) (sec : Section)
    (identifier : String) (obj scope : PyObj)
    (hid : sec.identifier = some identifier)
    (hres : resolve identifier = Except.ok (obj, scope)) :
    (load_section resolve sec).1.title
      = some (spec_pre_title obj identifier ++ title_suffix obj scope) := by
  obtain ⟨ht, -, -, -⟩ :=
    load_section_resolved_fields resolve sec identifier obj scope hid hres
  rw [ht, pre_title_eq_spec]

/-- C5 witness: a concrete `__init__` method resolved from a dotted
identifier yields the title "Constructor __init__". -/
theorem load_section_pre_title_spec_witness :
    (load_section
        (resolveTo
          { name? := some "__init__", doc? := none, module? := some "m",
            isClass := false, isCallable := false, hasFields := false,
            hasAsdict := false, asdictCallable := false, argspec? := none }
          modScope)
        { identifier := some "m.C.__init__" }).1.title
      = some (spec_pre_title
          { name? := some "__init__", doc? := none, module? := some "m",
            isClass := false, isCallable := false, hasFields := false,
            hasAsdict := false, asdictCallable := false, argspec? := none }
          "m.C.__init__"
        ++ title_suffix
          { name? := some "__init__", doc? := none, module? := some "m",
            isClass := false, isCallable := false, hasFields := false,
            hasAsdict := false, asdictCallable := false, argspec? := none }
          modScope) :=
  load_section_pre_title_spec _ _ "m.C.__init__" _ _ rfl rfl

/-- C8 counterexample: an entity whose intrinsic name is the empty string
completes the load with an empty title, refuting the claim that the title
is always non-empty. -/
theorem load_section_title_nonempty_counterexample :
    (load_section (resolveTo emptyNameObj modScope) { identifier := some "m.x" }).2
        = none ∧
    (load_section (resolveTo emptyNameObj modScope) { identifier := some "m.x" }).1.title
        = some "" := by
  decide

/-- C8 (amended): on completion the title is non-empty provided the name
it is built from is non-empty — the intrinsic name when present, else the
last path segment of the identifier. -/
theorem load_section_title_nonempty
    (resolve : String → Except PyError (PyObj × PyObj)) (sec : Section)
    (identifier : String) (obj scope : PyObj)
    (hid : sec.identifier = some identifier)
    (hres : resolve identifier = Except.ok (obj, scope))
    (hname : ∀ n, obj.name? = some n → n ≠ "")
    (hdefault : obj.name? = none → default_title_of identifier ≠ "") :
    ∃ t, (load_section resolve sec).1.title = some t ∧ t ≠ "" := by
  obtain ⟨ht, -, -, -⟩ :=
    load_section_resolved_fields resolve sec identifier obj scope hid hres
  refine ⟨_, ht, ?_⟩
  have hpre : pre_title obj identifier ≠ "" := by
    unfold pre_title
    cases hn : obj.name? with
    | some n =>
      simp only [Option.getD]
      by_cases hi : n = "__init__"
      · rw [if_pos hi]; decide
      · rw [if_neg hi]; exact hname n hn
    | none =>
      simp only [Option.getD]
      by_cases hi : default_title_of identifier = "__init__"
      · rw [if_pos hi]; decide
      · rw [if_neg hi]; exact hdefault hn
  exact string_append_ne_empty_left _ _ hpre

/-- C8 witness: a concrete completing run with a non-empty name yields a
non-empty title. -/
theorem load_section_title_nonempty_witness :
    ∃ t, (load_section (resolveTo fObj modScope) { identifier := some "m.f" }).1.title
        = some t ∧ t ≠ "" := by
  exact load_section_title_nonempty (resolveTo fObj modScope)
    { identifier := some "m.f" } "m.f" fObj modScope rfl rfl
    (by intro n hn; cases hn; decide) (by intro h; cases h)

/-- C9: the loader is deterministic and its output is independent of the
initial values of the fields it fills: two sections carrying the same
identifier produce the same error outcome, and on success identical
title, content and loader context. -/
theorem load_section_deterministic
    (resolve : String → Except PyError (PyObj × PyObj)) (identifier : String)
    (t1 c1 t2 c2 : Option String)
    (l1 l2 : Option (PyObj × PyObj)) :
    (load_section resolve ⟨some identifier, t1, c1, l1⟩).2
        = (load_section resolve ⟨some identifier, t2, c2, l2⟩).2 ∧
    ((load_section resolve ⟨some identifier, t1, c1, l1⟩).2 = none →
      (load_section resolve ⟨some identifier, t1, c1, l1⟩).1
        = (load_section resolve ⟨some identifier, t2, c2, l2⟩).1) := by
  unfold load_section
  dsimp only
  cases hres : resolve identifier with
  | error e => simp
  | ok pr =>
    obtain ⟨obj, scope⟩ := pr
    dsimp only
    split
    · split
      · simp
      · split <;> simp
    · simp

/-- C9 witness: two fresh sections with the same identifier but different
pre-set fields produce identical successful results. -/
theorem load_section_deterministic_witness :
    (load_section (resolveTo fObj modScope) ⟨some "m.f", none, none, none⟩).2
        = (load_section (resolveTo fObj modScope)
            ⟨some "m.f", some "stale", some "stale", none⟩).2 ∧
    ((load_section (resolveTo fObj modScope) ⟨some "m.f", none, none, none⟩).2 = none →
      (load_section (resolveTo fObj modScope) ⟨some "m.f", none, none, none⟩).1
        = (load_section (resolveTo fObj modScope)
            ⟨some "m.f", some "stale", some "stale", none⟩).1) :=
  load_section_deterministic (resolveTo fObj modScope) "m.f"
    none none (some "stale") (some "stale") none none

/-- C10: a callable entity lacking a `__name__` attribute that reaches the
signature step makes the load fail with an attribute-lookup error, and the
failure happens after title, content and loader context have been
written. -/
theorem load_section_missing_name
    (resolve : String → Except PyError (PyObj × PyObj)) (sec : Section)
    (identifier : String) (obj scope : PyObj)
    (hid : sec.identifier = some identifier)
    (hres : resolve identifier = Except.ok (obj, scope))
    (hc : obj.isCallable = true) (hname : obj.name? = none)
    (hnt : containsSub "namedtuple" (dedent (obj.doc?.getD "")) = false) :
    (load_section resolve sec).2 = some PyError.attributeError ∧
    (load_section resolve sec).1.title.isSome = true ∧
    (load_section resolve sec).1.content.isSome = true ∧
    (load_section resolve sec).1.loader_context.isSome = true := by
  have hgfs : ∀ oc, get_function_signature obj oc false
      = Except.error PyError.attributeError := by
    intro oc
    rcases oc with _ | oc
    · simp [get_function_signature, attr_name, hname]
    · cases hocn : oc.name? <;>
        simp [get_function_signature, attr_name, hocn, hname]
  obtain ⟨-, h2⟩ := load_section_run resolve sec identifier obj scope hid hres
  have hcond : (obj.isCallable && !containsSub "namedtuple" (dedent (obj.doc?.getD ""))) = true := by
    rw [hc, hnt]; rfl
  obtain ⟨herr, -⟩ := h2 hcond
  have hload := herr _ (hgfs _)
  rw [hload]
  exact ⟨rfl, rfl, rfl, rfl⟩

/-- C10 witness: a concrete nameless callable leaves every field populated
and surfaces an AttributeError. -/
theorem load_section_missing_name_witness :
    (load_section (resolveTo namelessCallable modScope)
        { identifier := some "m.f" }).2 = some PyError.attributeError ∧
    (load_section (resolveTo namelessCallable modScope)
        { identifier := some "m.f" }).1.title.isSome = true ∧
    (load_section (resolveTo namelessCallable modScope)
        { identifier := some "m.f" }).1.content.isSome = true ∧
    (load_section (resolveTo namelessCallable modScope)
        { identifier := some "m.f" }).1.loader_context.isSome = true :=
  load_section_missing_name (resolveTo namelessCallable modScope)
    { identifier := some "m.f" } "m.f" namelessCallable modScope
    rfl rfl rfl rfl (by decide)

/-- C1 counterexample: a callable whose reflective signature query raises
leaves the section with title, content and loader context all populated
while the call still fails — refuting the claim that a failing call sets
no field. -/
theorem load_section_atomicity_counterexample :
    (load_section (resolveTo oddCallable modScope) { identifier := some "m.f" }).2
        = some PyError.signatureError ∧
    (load_section (resolveTo oddCallable modScope) { identifier := some "m.f" }).1.title
        = some "f function" ∧
    (load_section (resolveTo oddCallable modScope) { identifier := some "m.f" }).1.content
        = some "" ∧
    (load_section (resolveTo oddCallable modScope) { identifier := some "m.f" }).1.loader_context
        = some (oddCallable, modScope) := by
  decide

/-- C1 (amended): a missing identifier or a resolution failure aborts the
call before any field is set, and on success all three fields are
populated; but a failure raised by the reflective signature query occurs
after title, content and loader context have all been set, so such a
failing call leaves the section fully populated. -/
theorem load_section_failure_atomicity
    (resolve : String → Except PyError (PyObj × PyObj)) (sec : Section) :
    ((load_section resolve sec).2 = none →
      (load_section resolve sec).1.title.isSome = true ∧
      (load_section resolve sec).1.content.isSome = true ∧
      (load_section resolve sec).1.loader_context.isSome = true) ∧
    (sec.identifier = none →
      load_section resolve sec = (sec, some PyError.assertionError)) ∧
    (∀ identifier e, sec.identifier = some identifier →
      resolve identifier = Except.error e →
      load_section resolve sec = (sec, some e)) ∧
    (∀ identifier obj scope e, sec.identifier = some identifier →
      resolve identifier = Except.ok (obj, scope) →
      (load_section resolve sec).2 = some e →
      (e = PyError.attributeError ∨ e = PyError.signatureError) ∧
      (load_section resolve sec).1.title.isSome = true ∧
      (load_section resolve sec).1.content.isSome = true ∧
      (load_section resolve sec).1.loader_context.isSome = true) := by
  refine ⟨?_, ?_, ?_, ?_⟩
  · intro hok
    cases hid : sec.identifier with
    | none =>
      unfold load_section at hok
      rw [hid] at hok
      simp at hok
    | some identifier =>
      cases hres : resolve identifier with
      | error e =>
        unfold load_section at hok
        rw [hid] at hok
        dsimp only at hok
        rw [hres] at hok
        simp at hok
      | ok pr =>
        obtain ⟨obj, scope⟩ := pr
        obtain ⟨ht, hl, -, c, hc⟩ :=
          load_section_resolved_fields resolve sec identifier obj scope hid hres
        rw [ht, hl, hc]
        exact ⟨rfl, rfl, rfl⟩
  · intro hid
    unfold load_section
    rw [hid]
  · intro identifier e hid hres
    unfold load_section
    rw [hid]
    dsimp only
    rw [hres]
  · intro identifier obj scope e hid hres he
    obtain ⟨hsig, -⟩ :=
      load_section_error_of_resolved resolve sec identifier obj scope e hid hres he
    obtain ⟨ht, hl, -, c, hc⟩ :=
      load_section_resolved_fields resolve sec identifier obj scope hid hres
    rw [ht, hl, hc]
    exact ⟨gfs_error_kind obj _ false e hsig, rfl, rfl, rfl⟩

/-- C1 witness: the amended atomicity applied to a concrete run whose
signature query raises after resolution succeeded. -/
theorem load_section_failure_atomicity_witness :
    (PyError.signatureError = PyError.attributeError ∨
      PyError.signatureError = PyError.signatureError) ∧
    (load_section (resolveTo oddCallable modScope)
        { identifier := some "m.f" }).1.title.isSome = true ∧
    (load_section (resolveTo oddCallable modScope)
        { identifier := some "m.f" }).1.content.isSome = true ∧
    (load_section (resolveTo oddCallable modScope)
        { identifier := some "m.f" }).1.loader_context.isSome = true :=
  (load_section_failure_atomicity (resolveTo oddCallable modScope)
      { identifier := some "m.f" }).2.2.2 "m.f" oddCallable modScope
    PyError.signatureError rfl rfl (by decide)

/-- C2: for a callable entity whose dedented documentation does not
contain "namedtuple", a completing load computes the formatted signature,
and the signature is prepended to the content as a fenced code block
exactly when the entity is not a class. -/
theorem load_section_signature_block
    (resolve : String → Except PyError (PyObj × PyObj)) (sec : Section)
    (identifier : String) (obj scope : PyObj)
    (hid : sec.identifier = some identifier)
    (hres : resolve identifier = Except.ok (obj, scope))
    (hc : obj.isCallable = true)
    (hnt : containsSub "namedtuple" (dedent (obj.doc?.getD "")) = false)
    (hok : (load_section resolve sec).2 = none) :
    ∃ sig, get_function_signature obj (if scope.isClass then some scope else none) false
        = Except.ok sig ∧
      (load_section resolve sec).1.content
        = some (if obj.isClass = true then dedent (obj.doc?.getD "")
                else code_fence sig ++ dedent (obj.doc?.getD "")) :=
  load_section_ok_of_resolved resolve sec identifier obj scope hid hres hc hnt hok

/-- C2 witness: a concrete documented function gets the fenced signature
block prepended to its dedented docstring. -/
theorem load_section_signature_block_witness :
    ∃ sig, get_function_signature docFn
        (if modScope.isClass then some modScope else none) false = Except.ok sig ∧
      (load_section (resolveTo docFn modScope) { identifier := some "m.g" }).1.content
        = some (if docFn.isClass = true then dedent (docFn.doc?.getD "")
                else code_fence sig ++ dedent (docFn.doc?.getD "")) :=
  load_section_signature_block (resolveTo docFn modScope)
    { identifier := some "m.g" } "m.g" docFn modScope rfl rfl rfl
    (by decide) (by decide)

/-- C3 counterexample: a callable non-class instance that passes the
named-tuple duck-type check and whose docstring lacks the substring
"namedtuple" nevertheless gets a signature block prepended, refuting the
claim that a duck-typed named tuple never receives one. -/
theorem load_section_namedtuple_counterexample :
    (load_section (resolveTo duckNt modScope) { identifier := some "m.nt" }).2
        = none ∧
    (load_section (resolveTo duckNt modScope) { identifier := some "m.nt" }).1.title
        = some "nt namedtuple" ∧
    (load_section (resolveTo duckNt modScope) { identifier := some "m.nt" }).1.content
        = some (code_fence "nt(x)") ∧
    code_fence "nt(x)" ≠ dedent (duckNt.doc?.getD "") := by
  decide

/-- C3 (amended): a duck-typed named tuple always gets the " namedtuple"
title suffix, but the signature block is still prepended exactly when the
entity is callable, is not a class, and its dedented documentation does
not contain "namedtuple". -/
theorem load_section_namedtuple_policy
    (resolve : String → Except PyError (PyObj × PyObj)) (sec : Section)
    (identifier : String) (obj scope : PyObj)
    (hid : sec.identifier = some identifier)
    (hres : resolve identifier = Except.ok (obj, scope))
    (hnt : isnamedtuple obj = true) :
    (∃ p, (load_section resolve sec).1.title = some (p ++ " namedtuple")) ∧
    ((load_section resolve sec).2 = none →
      ((obj.isCallable = true ∧ obj.isClass = false ∧
          containsSub "namedtuple" (dedent (obj.doc?.getD "")) = false) →
        ∃ sig, get_function_signature obj
            (if scope.isClass then some scope else none) false = Except.ok sig ∧
          (load_section resolve sec).1.content
            = some (code_fence sig ++ dedent (obj.doc?.getD ""))) ∧
      (¬(obj.isCallable = true ∧ obj.isClass = false ∧
          containsSub "namedtuple" (dedent (obj.doc?.getD "")) = false) →
        (load_section resolve sec).1.content
          = some (dedent (obj.doc?.getD "")))) := by
  obtain ⟨ht, -, -, -⟩ :=
    load_section_resolved_fields resolve sec identifier obj scope hid hres
  constructor
  · refine ⟨pre_title obj identifier, ?_⟩
    rw [ht]
    unfold title_suffix
    rw [hnt]
    simp
  · intro hok
    constructor
    · rintro ⟨hc, hcls, hsub⟩
      obtain ⟨sig, hsig, hcontent⟩ :=
        load_section_ok_of_resolved resolve sec identifier obj scope hid hres hc hsub hok
      rw [hcls] at hcontent
      simp only [if_neg (by decide : ¬ (false = true))] at hcontent
      exact ⟨sig, hsig, hcontent⟩
    · intro hneg
      by_cases hc : obj.isCallable = true
      · by_cases hsub : containsSub "namedtuple" (dedent (obj.doc?.getD "")) = false
        · have hcls : obj.isClass = true := by
            by_contra h
            rw [Bool.not_eq_true] at h
            exact hneg ⟨hc, h, hsub⟩
          obtain ⟨sig, hsig, hcontent⟩ :=
            load_section_ok_of_resolved resolve sec identifier obj scope hid hres hc hsub hok
          rw [hcls, if_pos rfl] at hcontent
          exact hcontent
        · have hsub2 : containsSub "namedtuple" (dedent (obj.doc?.getD "")) = true := by
            rw [Bool.not_eq_false] at hsub
            exact hsub
          have hcf : (obj.isCallable && !containsSub "namedtuple" (dedent (obj.doc?.getD ""))) = false := by
            rw [hsub2]; simp
          exact (load_section_no_sig_content resolve sec identifier obj scope hid hres hcf).1
      · have hc2 : obj.isCallable = false := by
          rw [Bool.not_eq_true] at hc
          exact hc
        have hcf : (obj.isCallable && !containsSub "namedtuple" (dedent (obj.doc?.getD ""))) = false := by
          rw [hc2]; simp
        exact (load_section_no_sig_content resolve sec identifier obj scope hid hres hcf).1

/-- C3 witness: the amended policy applied to the concrete duck-typed
named tuple, whose title carries the suffix while a block is prepended. -/
theorem load_section_namedtuple_policy_witness :
    (∃ p, (load_section (resolveTo duckNt modScope)
        { identifier := some "m.nt" }).1.title = some (p ++ " namedtuple")) ∧
    ((load_section (resolveTo duckNt modScope) { identifier := some "m.nt" }).2 = none →
      ((duckNt.isCallable = true ∧ duckNt.isClass = false ∧
          containsSub "namedtuple" (dedent (duckNt.doc?.getD "")) = false) →
        ∃ sig, get_function_signature duckNt
            (if modScope.isClass then some modScope else none) false = Except.ok sig ∧
          (load_section (resolveTo duckNt modScope) { identifier := some "m.nt" }).1.content
            = some (code_fence sig ++ dedent (duckNt.doc?.getD ""))) ∧
      (¬(duckNt.isCallable = true ∧ duckNt.isClass = false ∧
          containsSub "namedtuple" (dedent (duckNt.doc?.getD "")) = false) →
        (load_section (resolveTo duckNt modScope) { identifier := some "m.nt" }).1.content
          = some (dedent (duckNt.doc?.getD "")))) :=
  load_section_namedtuple_policy (resolveTo duckNt modScope)
    { identifier := some "m.nt" } "m.nt" duckNt modScope rfl rfl rfl

/-- C6: the formatted signature is the dotted name — optional module when
`show_module`, optional owner class name, then the callable's own name,
omitted exactly when it equals "__init__" — followed by the parenthesized
comma-joined parameter list (positional parameters, then defaulted ones
rendered name=default, then *varargs, then **keywords). -/
theorem get_function_signature_spec
    (function : PyObj) (owner_class : Option PyObj) (show_module : Bool)
    (nm : String) (a : ArgSpec) (mods owners : List String)
    (hn : function.name? = some nm)
    (ha : function.argspec? = some a)
    (hlen : a.defaults.length ≤ a.args.length)
    (hmt : show_module = true → ∃ m, function.module? = some m ∧ mods = [m])
    (hmf : show_module = false → mods = [])
    (hot : ∀ oc, owner_class = some oc → ∃ n, oc.name? = some n ∧ owners = [n])
    (hof : owner_class = none → owners = []) :
    get_function_signature function owner_class show_module
      = Except.ok (String.intercalate "."
            (mods ++ owners ++ (if nm = "__init__" then [] else [nm]))
          ++ "(" ++ String.intercalate ", " (spec_params a) ++ ")") := by
  unfold get_function_signature attr_name
  rw [hn, ha]
  rw [← gfs_params_eq_spec a hlen]
  cases show_module with
  | false =>
    rw [hmf rfl]
    rcases howner : owner_class with _ | oc
    · rw [hof howner]
      by_cases hi : nm = "__init__" <;> simp [hi]
    · obtain ⟨n, hocn, heq⟩ := hot oc howner
      subst heq
      by_cases hi : nm = "__init__" <;> simp [hocn, hi]
  | true =>
    obtain ⟨m, hm, heq⟩ := hmt rfl
    subst heq
    rw [hm]
    rcases howner : owner_class with _ | oc
    · rw [hof howner]
      by_cases hi : nm = "__init__" <;> simp [hi]
    · obtain ⟨n, hocn, heq2⟩ := hot oc howner
      subst heq2
      by_cases hi : nm = "__init__" <;> simp [hocn, hi]

/-- C6 witness: for the plain function `f(a, b=2, *args, **kw)` with no
owner class and `show_module` off, the result is exactly
"f(a, b=2, *args, **kw)". -/
theorem get_function_signature_spec_witness :
    get_function_signature fObj none false = Except.ok "f(a, b=2, *args, **kw)" := by
  have h := get_function_signature_spec fObj none false "f"
    ⟨["a", "b"], ["2"], some "args", some "kw"⟩ [] [] rfl rfl (by decide)
    (fun hcon => absurd hcon (by decide)) (fun _ => rfl)
    (fun oc hcon => by cases hcon) (fun _ => rfl)
  rw [h]
  exact congrArg Except.ok (by decide)

/-- C7 counterexample: a docstring containing a whitespace-only line is
changed by the loader even though its non-blank lines share no common
whitespace prefix — the whitespace-only line is blanked — refuting the
claim that the content is then the docstring unchanged. -/
theorem load_section_dedent_counterexample :
    (load_section (resolveTo wsDocObj modScope) { identifier := some "m.T" }).2
        = none ∧
    (load_section (resolveTo wsDocObj modScope) { identifier := some "m.T" }).1.content
        = some "a\n\nb" ∧
    ("a\n\nb" : String) ≠ wsDocObj.doc?.getD "" := by
  decide

/-- C7 (amended): the content (before any signature block) is the
docstring dedented as CPython does: whitespace-only lines are blanked; the
margin is a whitespace string prefixing every line that contains
non-whitespace, and the longest such; it is removed from the front of
every line that starts with it; and the text is returned unchanged when
the margin is empty and no line was whitespace-only. -/
theorem load_section_dedent_characterization
    (resolve : String → Except PyError (PyObj × PyObj)) (sec : Section)
    (identifier : String) (obj scope : PyObj)
    (hid : sec.identifier = some identifier)
    (hres : resolve identifier = Except.ok (obj, scope)) :
    (∃ c, (load_section resolve sec).1.content = some c ∧
      (c = dedent (obj.doc?.getD "") ∨
        ∃ sig, c = code_fence sig ++ dedent (obj.doc?.getD ""))) ∧
    (dedent (obj.doc?.getD "")).data
        = joinNl ((doc_lines (obj.doc?.getD "")).map
            (stripL (doc_margin (obj.doc?.getD "")))) ∧
    (doc_margin (obj.doc?.getD "")).all isWsChar = true ∧
    (∀ l ∈ doc_lines (obj.doc?.getD ""), hasNonWsL l = true →
      doc_margin (obj.doc?.getD "") <+: l) ∧
    (∀ p : List Char, p.all isWsChar = true →
      (∀ l ∈ doc_lines (obj.doc?.getD ""), hasNonWsL l = true → p <+: l) →
      (∃ l ∈ doc_lines (obj.doc?.getD ""), hasNonWsL l = true) →
      p <+: doc_margin (obj.doc?.getD "")) ∧
    ((∀ l ∈ splitNl (obj.doc?.getD "").data, normL l = l) →
      doc_margin (obj.doc?.getD "") = [] →
      dedent (obj.doc?.getD "") = obj.doc?.getD "") := by
  refine ⟨?_, rfl, marginL_all_ws _, marginL_starts_lines _, prefix_marginL _,
    dedent_id (obj.doc?.getD "")⟩
  obtain ⟨c, h1, h2⟩ := load_section_resolved resolve sec identifier obj scope hid hres
  refine ⟨c, by rw [h1], ?_⟩
  rcases h2 with h2 | ⟨sig, -, h2⟩
  · exact Or.inl h2
  · exact Or.inr ⟨sig, h2⟩

/-- C7 witness: the characterization applied to a concrete docstring with
a two-space margin. -/
theorem load_section_dedent_characterization_witness :
    (∃ c, (load_section
        (resolveTo
          { name? := some "T", doc? := some "  a\n    b", module? := some "m",
            isClass := false, isCallable := false, hasFields := false,
            hasAsdict := false, asdictCallable := false, argspec? := none }
          modScope)
        { identifier := some "m.T" }).1.content = some c ∧
      (c = dedent "  a\n    b" ∨
        ∃ sig, c = code_fence sig ++ dedent "  a\n    b")) ∧
    (dedent "  a\n    b").data
        = joinNl ((doc_lines "  a\n    b").map (stripL (doc_margin "  a\n    b"))) ∧
    (doc_margin "  a\n    b").all isWsChar = true ∧
    (∀ l ∈ doc_lines "  a\n    b", hasNonWsL l = true →
      doc_margin "  a\n    b" <+: l) ∧
    (∀ p : List Char, p.all isWsChar = true →
      (∀ l ∈ doc_lines "  a\n    b", hasNonWsL l = true → p <+: l) →
      (∃ l ∈ doc_lines "  a\n    b", hasNonWsL l = true) →
      p <+: doc_margin "  a\n    b") ∧
    ((∀ l ∈ splitNl ("  a\n    b" : String).data, normL l = l) →
      doc_margin "  a\n    b" = [] →
      dedent "  a\n    b" = "  a\n    b") :=
  load_section_dedent_characterization
    (resolveTo
      { name? := some "T", doc? := some "  a\n    b", module? := some "m",
        isClass := false, isCallable := false, hasFields := false,
        hasAsdict := false, asdictCallable := false, argspec? := none }
      modScope)
    { identifier := some "m.T" } "m.T" _ modScope rfl rfl

end Pydocmd
